import Mathlib

/-!
Verification of the cache/storage subsystem of the security-assessor
repository.  The Python sources are shallowly embedded: pure helpers become
Lean functions, the filesystem and the object-store bucket become explicit
association lists from blob name to blob content, machine integers become
Nat with explicit reduction modulo 2 ^ 32 where the source relies on 32-bit
wraparound (SHA-256), and fallible code returns Option or Except.
-/

namespace SecAssessor

/-! ## Python string primitives over code points

Python strings are modelled as lists of Unicode code points (Nat).
str.lower / str.upper apply the full Unicode case tables, under which one
code point can map to several (ß uppercases to SS); the per-code-point
mappings therefore return lists.  The table below covers the ASCII range
exactly — so it agrees with Python on every ASCII string — together with
the known expanding or non-round-tripping special points (ß, µ, ı, ſ, ς,
İ, Μ, Σ); remaining code points are left unchanged, so theorems about
case mapping quantify only over inputs drawn from the covered points.
The whitespace set used by str.strip is modelled as the ASCII whitespace
characters.
-/

/-- Code points of the ASCII whitespace characters stripped by str.strip:
tab, newline, vertical tab, form feed, carriage return, space. -/
def isPySpace (n : Nat) : Bool :=
  n == 9 || n == 10 || n == 11 || n == 12 || n == 13 || n == 32

/-- Python str.lower on one code point: ASCII letters shift by 32; the
special points 304 (I with dot above, lowering to i followed by combining
dot 775), 924 (capital Mu) and 931 (capital Sigma) follow the Unicode
tables; other covered points are case-invariant under lower. -/
def pyLowerCp (n : Nat) : List Nat :=
  if 65 ≤ n ∧ n ≤ 90 then [n + 32]
  else if n = 304 then [105, 775]
  else if n = 924 then [956]
  else if n = 931 then [963]
  else [n]

/-- Python str.upper on one code point: ASCII letters shift by 32; the
special points follow the Unicode tables — 223 (sharp s ß) expands to SS,
181 (micro sign µ) maps to capital Mu 924, 305 (dotless i ı) to I, 383
(long s ſ) to S, and 962 (final sigma ς) to capital Sigma 931. -/
def pyUpperCp (n : Nat) : List Nat :=
  if 97 ≤ n ∧ n ≤ 122 then [n - 32]
  else if n = 223 then [83, 83]
  else if n = 181 then [924]
  else if n = 305 then [73]
  else if n = 383 then [83]
  else if n = 962 then [931]
  else [n]

/-- str.lower over a whole string. -/
def pyLower (s : List Nat) : List Nat := (s.map pyLowerCp).flatten

/-- str.upper over a whole string. -/
def pyUpper (s : List Nat) : List Nat := (s.map pyUpperCp).flatten

/-- str.strip: drop leading and trailing whitespace. -/
def pyStrip (s : List Nat) : List Nat :=
  ((s.dropWhile isPySpace).reverse.dropWhile isPySpace).reverse

/-- UTF-8 encoding of one code point, as produced by str.encode. -/
def utf8EncodeCp (n : Nat) : List Nat :=
  if n < 128 then [n]
  else if n < 2048 then
    [192 ||| (n >>> 6), 128 ||| (n &&& 63)]
  else if n < 65536 then
    [224 ||| (n >>> 12), 128 ||| ((n >>> 6) &&& 63), 128 ||| (n &&& 63)]
  else
    [240 ||| (n >>> 18), 128 ||| ((n >>> 12) &&& 63),
     128 ||| ((n >>> 6) &&& 63), 128 ||| (n &&& 63)]

/-- UTF-8 encoding of a whole string (str.encode with the default codec). -/
def utf8Encode (s : List Nat) : List Nat :=
  (s.map utf8EncodeCp).flatten

/-! ## SHA-256 (hashlib.sha256) over byte lists -/

/-- Reduction modulo 2 ^ 32, the word size of SHA-256 arithmetic. -/
def m32 (n : Nat) : Nat := n % 4294967296

/-- Right rotation of a 32-bit word. -/
def rotr32 (s x : Nat) : Nat := m32 ((x >>> s) ||| (x <<< (32 - s)))

/-- SHA-256 choice function. -/
def shaCh (x y z : Nat) : Nat := (x &&& y) ^^^ ((x ^^^ 4294967295) &&& z)

/-- SHA-256 majority function. -/
def shaMaj (x y z : Nat) : Nat := (x &&& y) ^^^ (x &&& z) ^^^ (y &&& z)

/-- SHA-256 big sigma 0. -/
def sigmaBig0 (x : Nat) : Nat := rotr32 2 x ^^^ rotr32 13 x ^^^ rotr32 22 x

/-- SHA-256 big sigma 1. -/
def sigmaBig1 (x : Nat) : Nat := rotr32 6 x ^^^ rotr32 11 x ^^^ rotr32 25 x

/-- SHA-256 small sigma 0. -/
def sigmaSmall0 (x : Nat) : Nat := rotr32 7 x ^^^ rotr32 18 x ^^^ (x >>> 3)

/-- SHA-256 small sigma 1. -/
def sigmaSmall1 (x : Nat) : Nat := rotr32 17 x ^^^ rotr32 19 x ^^^ (x >>> 10)

/-- SHA-256 initial hash value (FIPS 180-4, written in decimal). -/
def shaH0 : List Nat :=
  [1779033703, 3144134277, 1013904242, 2773480762,
   1359893119, 2600822924, 528734635, 1541459225]

/-- SHA-256 round constants (FIPS 180-4, written in decimal). -/
def shaK : List Nat :=
  [1116352408, 1899447441, 3049323471, 3921009573, 961987163, 1508970993,
   2453635748, 2870763221, 3624381080, 310598401, 607225278, 1426881987,
   1925078388, 2162078206, 2614888103, 3248222580, 3835390401, 4022224774,
   264347078, 604807628, 770255983, 1249150122, 1555081692, 1996064986,
   2554220882, 2821834349, 2952996808, 3210313671, 3336571891, 3584528711,
   113926993, 338241895, 666307205, 773529912, 1294757372, 1396182291,
   1695183700, 1986661051, 2177026350, 2456956037, 2730485921, 2820302411,
   3259730800, 3345764771, 3516065817, 3600352804, 4094571909, 275423344,
   430227734, 506948616, 659060556, 883997877, 958139571, 1322822218,
   1537002063, 1747873779, 1955562222, 2024104815, 2227730452, 2361852424,
   2428436474, 2756734187, 3204031479, 3329325298]

/-- Big-endian byte decomposition of a number, k bytes wide. -/
def bytesBE (k n : Nat) : List Nat :=
  (List.range k).map (fun i => (n >>> (8 * (k - 1 - i))) % 256)

/-- SHA-256 padding: append 0x80, zero bytes to 56 mod 64, then the
bit length as 8 big-endian bytes. -/
def shaPad (msg : List Nat) : List Nat :=
  let z := (119 - (msg.length % 64)) % 64
  msg ++ [128] ++ List.replicate z 0 ++ bytesBE 8 (8 * msg.length)

/-- Group a byte list into big-endian 32-bit words. -/
def toWords : List Nat → List Nat
  | a :: b :: c :: d :: rest =>
      (a * 16777216 + b * 65536 + c * 256 + d) :: toWords rest
  | _ => []

/-- Split a byte list into 64-byte blocks; the fuel is an upper bound on
the number of blocks, so that the recursion is structural (and hence
evaluable inside proofs by rfl or decide). -/
def chunk64Fuel : Nat → List Nat → List (List Nat)
  | _, [] => []
  | 0, _ => []
  | fuel + 1, x :: xs => (x :: xs).take 64 :: chunk64Fuel fuel ((x :: xs).drop 64)

/-- Split a byte list into 64-byte blocks. -/
def chunk64 (l : List Nat) : List (List Nat) := chunk64Fuel l.length l

/-- Extend the 16 message-schedule words of a block to 64 words. -/
def shaSchedule (ws : List Nat) : List Nat :=
  (List.range 48).foldl
    (fun acc _ =>
      acc ++ [m32 (sigmaSmall1 (acc.getD (acc.length - 2) 0) +
                   acc.getD (acc.length - 7) 0 +
                   sigmaSmall0 (acc.getD (acc.length - 15) 0) +
                   acc.getD (acc.length - 16) 0)])
    ws

/-- One SHA-256 compression round; the state is the 8-word working list. -/
def shaRound (st : List Nat) (kw : Nat × Nat) : List Nat :=
  match st with
  | [a, b, c, d, e, f, g, h] =>
      let t1 := m32 (h + sigmaBig1 e + shaCh e f g + kw.1 + kw.2)
      let t2 := m32 (sigmaBig0 a + shaMaj a b c)
      [m32 (t1 + t2), a, b, c, m32 (d + t1), e, f, g]
  | other => other

/-- Compress one 64-byte block into the running hash state. -/
def shaCompress (hs : List Nat) (block : List Nat) : List Nat :=
  let ws := shaSchedule (toWords block)
  let st := (shaK.zip ws).foldl shaRound hs
  (hs.zip st).map (fun p => m32 (p.1 + p.2))

/-- SHA-256 of a byte list, as the 8 words of the final hash state. -/
def sha256Words (msg : List Nat) : List Nat :=
  (chunk64 (shaPad msg)).foldl shaCompress shaH0

/-- Lowercase hex digit for a value below 16. -/
def hexChar (n : Nat) : Char :=
  if n < 10 then Char.ofNat (48 + n) else Char.ofNat (87 + n)

/-- Eight lowercase hex digits of one 32-bit word. -/
def wordHex (w : Nat) : List Char :=
  (List.range 8).map (fun i => hexChar ((w >>> (4 * (7 - i))) % 16))

/-- SHA-256 hexdigest: 64 lowercase hex characters. -/
def sha256Hex (msg : List Nat) : List Char :=
  ((sha256Words msg).map wordHex).flatten

/-! ## EntityResolver key derivation -/

/-- Embeds EntityResolver._get_cache_key: the first 16 hex characters of
sha256 of the lower-cased, stripped, UTF-8 encoded input. -/
def getCacheKey (inputText : List Nat) : List Char :=
  (sha256Hex (utf8Encode (pyStrip (pyLower inputText)))).take 16

/-! ## JSON documents and Python dict semantics

JSON values as read and written by the json module.  An ISO-8601 timestamp
string, as produced by datetime.now().isoformat() and consumed by
datetime.fromisoformat, is modelled by the dedicated constructor
Json.time carrying the moment it denotes in integer seconds; isoformat of
a datetime round-trips through fromisoformat, so the encoding is faithful.
Other strings are Json.str and do not parse as timestamps in the model.
-/

inductive Json where
  | null
  | bool (b : Bool)
  | num (n : Int)
  | str (s : String)
  | time (t : Int)
  | arr (elems : List Json)
  | obj (fields : List (String × Json))

/-- A Python dict with string keys, in insertion order. -/
abbrev Doc := List (String × Json)

/-- Python d[k] lookup restricted to present keys, d.get(k): the value at
the first (unique, for a real dict) matching key. -/
def dictLookup (k : String) : Doc → Option Json
  | [] => none
  | p :: rest => if p.1 = k then some p.2 else dictLookup k rest

/-- Python d[k] = v assignment: replace the value in place if the key is
present, otherwise append the new pair at the end. -/
def dictSet (k : String) (v : Json) (d : Doc) : Doc :=
  if d.any (fun p => p.1 == k) then
    d.map (fun p => if p.1 = k then (k, v) else p)
  else
    d ++ [(k, v)]

/-- Python truthiness of a JSON value (if value: ...). -/
def pyTruthy : Json → Bool
  | .null => false
  | .bool b => b
  | .num n => n != 0
  | .str s => !s.isEmpty
  | .time _ => true
  | .arr es => !es.isEmpty
  | .obj fs => !fs.isEmpty

/-! ## Blob stores

A filesystem directory or an object-store bucket is an association list
from blob name (list of characters, e.g. the characters of key.json) to
blob content.  Content either parses as JSON or is corrupt: json.load /
json.loads on a corrupt blob raises, which the source catches.
The model's filesystem is fault-free: reads and writes of existing names
succeed, matching the success paths of the source; corrupt blobs model
externally written invalid bytes.
-/

/-- The name of a stored blob. -/
abbrev Name := List Char

/-- Stored bytes: either valid JSON or bytes that fail to parse. -/
inductive Blob where
  | valid (j : Json)
  | corrupt

/-- A directory or bucket: names mapped to contents. -/
abbrev Store := List (Name × Blob)

/-- Look up a blob by name (file existence check plus read). -/
def storeLookup (n : Name) : Store → Option Blob
  | [] => none
  | p :: rest => if p.1 = n then some p.2 else storeLookup n rest

/-- Remove a blob by name (file unlink / bucket delete). -/
def storeErase (n : Name) : Store → Store
  | [] => []
  | p :: rest => if p.1 = n then storeErase n rest else p :: storeErase n rest

/-- Write a blob, overwriting any previous content under the name. -/
def storeWrite (n : Name) (b : Blob) (s : Store) : Store :=
  (n, b) :: storeErase n s

/-- The characters of the literal ".json". -/
def jsonSuffixL : Name := ['.', 'j', 's', 'o', 'n']

/-- The file or blob name for a cache key: the key followed by ".json". -/
def keyFile (key : Name) : Name := key ++ jsonSuffixL

/-- Embeds Python str.replace with old = ".json" and new = "": scanning
left to right, every occurrence of ".json" is removed and scanning resumes
after the removed occurrence. -/
def removeJsonAll : List Char → List Char
  | '.' :: 'j' :: 's' :: 'o' :: 'n' :: rest => removeJsonAll rest
  | c :: rest => c :: removeJsonAll rest
  | [] => []

/-- Whether ".json" occurs as a substring (used only in theorem statements
about names without an interior occurrence). -/
def containsJson : List Char → Bool
  | [] => false
  | c :: rest => jsonSuffixL.isPrefixOf (c :: rest) || containsJson rest

/-- Embeds pathlib Path.stem: the name without its final suffix, where a
suffix is the part from the last dot, provided that dot is neither the
first nor the last character. -/
def pyStem (n : Name) : Name :=
  let i := List.findIdx (fun c => c == '.') n.reverse
  if i < n.length then
    let pos := n.length - 1 - i
    if 0 < pos ∧ pos < n.length - 1 then n.take pos else n
  else n

/-- Whether a name ends with ".json" (str.endswith, and the set matched by
glob with pattern *.json). -/
def endsJson (n : Name) : Bool := jsonSuffixL.isSuffixOf n

/-- Modelled from the spec wording of the list_keys claim, for refinement
comparison with the code: strip exactly the trailing ".json" suffix,
leaving the rest of the name unchanged. -/
def specStripTrailingJson (n : Name) : Name :=
  if endsJson n then n.take (n.length - 5) else n

/-! ## CacheManager (gcs_cache.py)

The manager owns a local directory and, when GCS mode is active, a bucket.
Module-level facts fixed at module load time (whether google.cloud.storage
loaded) and the outcome of storage.Client construction are inputs to the
constructor.  datetime.now() is an explicit parameter of the operations
that read the clock, in integer seconds.
-/

/-- Environment facts seen by CacheManager.init: whether the
google-cloud-storage import succeeded (module global GCS_AVAILABLE) and
whether storage.Client construction would raise. -/
structure InitEnv where
  gcsAvailable : Bool
  clientInitFails : Bool
deriving DecidableEq

/-- Python truthiness of the optional bucket_name argument: None and the
empty string are falsy. -/
def pyTruthyStr : Option String → Bool
  | none => false
  | some s => !s.isEmpty

/-- The state of a CacheManager: the backend selector fixed at
construction, the configured names, and the contents of the local cache
directory and of the bucket. -/
structure CacheManager where
  useGcs : Bool
  bucketName : Option String
  localCacheDir : String
  gcsAvailable : Bool
  localFiles : Store
  gcsBlobs : Store

/-- Embeds CacheManager.__init__: use_gcs is requested mode AND library
availability; with use_gcs still set, a falsy bucket name or a failing
client construction falls back to local.  local_cache_dir defaults to
./Runtime/assessor_cache and its existing contents are kept
(mkdir with exist_ok). -/
def CacheManager.init (env : InitEnv) (bucketName : Option String)
    (useGcs : Bool) (localCacheDir : Option String)
    (localFiles gcsBlobs : Store) : CacheManager :=
  let u := useGcs && env.gcsAvailable
  let u := if u then
             if !pyTruthyStr bucketName then false
             else if env.clientInitFails then false else true
           else u
  { useGcs := u
    bucketName := bucketName
    localCacheDir := localCacheDir.getD "./Runtime/assessor_cache"
    gcsAvailable := env.gcsAvailable
    localFiles := localFiles
    gcsBlobs := gcsBlobs }

/-- Embeds CacheManager._get_from_local: None when the file is absent,
None (logged) when json.load raises on corrupt bytes, the parsed data
otherwise. -/
def CacheManager.getFromLocal (cm : CacheManager) (key : Name) : Option Json :=
  match storeLookup (keyFile key) cm.localFiles with
  | none => none
  | some (Blob.valid j) => some j
  | some Blob.corrupt => none

/-- Embeds CacheManager._get_from_gcs: None when the blob does not exist,
None (logged) when json.loads raises, the parsed data otherwise. -/
def CacheManager.getFromGcs (cm : CacheManager) (key : Name) : Option Json :=
  match storeLookup (keyFile key) cm.gcsBlobs with
  | none => none
  | some (Blob.valid j) => some j
  | some Blob.corrupt => none

/-- Embeds CacheManager.get: delegate by backend. -/
def CacheManager.get (cm : CacheManager) (key : Name) : Option Json :=
  if cm.useGcs then cm.getFromGcs key else cm.getFromLocal key

/-- Embeds CacheManager._set_to_local: json.dump the document to
key.json, overwriting; in the fault-free filesystem the write succeeds. -/
def CacheManager.setToLocal (cm : CacheManager) (key : Name) (j : Json) :
    Bool × CacheManager :=
  (true, { cm with localFiles := storeWrite (keyFile key) (Blob.valid j) cm.localFiles })

/-- Embeds CacheManager._set_to_gcs: upload the serialized document,
unconditionally overwriting. -/
def CacheManager.setToGcs (cm : CacheManager) (key : Name) (j : Json) :
    Bool × CacheManager :=
  (true, { cm with gcsBlobs := storeWrite (keyFile key) (Blob.valid j) cm.gcsBlobs })

/-- Embeds CacheManager.set: stamp cached_at with the current time on the
caller's dict in place, then delegate by backend.  The returned Doc is the
caller's dictionary object after the in-place mutation
data of cached_at = datetime.now().isoformat(). -/
def CacheManager.set (cm : CacheManager) (now : Int) (key : Name) (d : Doc) :
    Bool × CacheManager × Doc :=
  let d2 := dictSet "cached_at" (Json.time now) d
  if cm.useGcs then
    let r := cm.setToGcs key (Json.obj d2)
    (r.1, r.2, d2)
  else
    let r := cm.setToLocal key (Json.obj d2)
    (r.1, r.2, d2)

/-- Embeds CacheManager._delete_from_local: unlink if the file exists and
report True, otherwise report False. -/
def CacheManager.deleteFromLocal (cm : CacheManager) (key : Name) :
    Bool × CacheManager :=
  if (storeLookup (keyFile key) cm.localFiles).isSome then
    (true, { cm with localFiles := storeErase (keyFile key) cm.localFiles })
  else
    (false, cm)

/-- Embeds CacheManager._delete_from_gcs: blob.delete succeeds when the
blob exists; on a missing blob the client raises NotFound, which the
except clause converts to False. -/
def CacheManager.deleteFromGcs (cm : CacheManager) (key : Name) :
    Bool × CacheManager :=
  if (storeLookup (keyFile key) cm.gcsBlobs).isSome then
    (true, { cm with gcsBlobs := storeErase (keyFile key) cm.gcsBlobs })
  else
    (false, cm)

/-- Embeds CacheManager.delete: delegate by backend. -/
def CacheManager.delete (cm : CacheManager) (key : Name) : Bool × CacheManager :=
  if cm.useGcs then cm.deleteFromGcs key else cm.deleteFromLocal key

/-- Embeds CacheManager._list_local_keys: the stems of the files matching
glob *.json. -/
def CacheManager.listLocalKeys (cm : CacheManager) : List Name :=
  (((cm.localFiles.map Prod.fst).filter endsJson).map pyStem)

/-- Embeds CacheManager._list_gcs_keys: over all blobs whose name ends
with .json, blob.name.replace of ".json" by the empty string — which
removes every occurrence of ".json", not only the trailing one. -/
def CacheManager.listGcsKeys (cm : CacheManager) : List Name :=
  (((cm.gcsBlobs.map Prod.fst).filter endsJson).map removeJsonAll)

/-- Embeds CacheManager.list_keys: delegate by backend. -/
def CacheManager.list_keys (cm : CacheManager) : List Name :=
  if cm.useGcs then cm.listGcsKeys else cm.listLocalKeys

/-- Embeds CacheManager._clear_local: unlink every glob *.json match,
counting; in the fault-free filesystem every unlink succeeds. -/
def CacheManager.clearLocal (cm : CacheManager) : Nat × CacheManager :=
  (((cm.localFiles.map Prod.fst).filter endsJson).length,
   { cm with localFiles := cm.localFiles.filter (fun p => !endsJson p.1) })

/-- Embeds CacheManager._clear_gcs: delete every blob whose name ends
with .json, counting. -/
def CacheManager.clearGcs (cm : CacheManager) : Nat × CacheManager :=
  (((cm.gcsBlobs.map Prod.fst).filter endsJson).length,
   { cm with gcsBlobs := cm.gcsBlobs.filter (fun p => !endsJson p.1) })

/-- Embeds CacheManager.clear_all: delegate by backend. -/
def CacheManager.clear_all (cm : CacheManager) : Nat × CacheManager :=
  if cm.useGcs then cm.clearGcs else cm.clearLocal

/-- The dictionary returned by CacheManager.get_storage_info. -/
structure StorageInfo where
  storageType : String
  location : String
  bucketName : Option String
  localCacheDir : String
  gcsAvailable : Bool
deriving DecidableEq

/-- Embeds CacheManager.get_storage_info. -/
def CacheManager.get_storage_info (cm : CacheManager) : StorageInfo :=
  { storageType := if cm.useGcs then "gcs" else "local"
    location := if cm.useGcs then
                  "gs://" ++ (cm.bucketName.getD "") ++ "/"
                else cm.localCacheDir
    bucketName := if cm.useGcs then cm.bucketName else none
    localCacheDir := cm.localCacheDir
    gcsAvailable := cm.gcsAvailable }

/-! ## EntityResolver caller-side cache (entity_resolver.py)

EntityResolver reads and writes JSON files in its cache_dir directly and
performs the staleness check on load.  Clock values are integer seconds;
timedelta.days of a datetime difference is floor division of the elapsed
seconds by 86400.
-/

/-- Default of config.CACHE_TTL_DAYS: int(os.getenv(CACHE_TTL_DAYS, 7)). -/
def CACHE_TTL_DAYS : Int := 7

/-- The moment denoted by the fallback string 2000-01-01 passed to
datetime.fromisoformat when cached_at is absent (Unix seconds). -/
def iso20000101 : Int := 946684800

/-- Time denoted by data.get of cached_at with the 2000-01-01 default, as
recovered by datetime.fromisoformat: the stamped moment for a timestamp
value, the fallback when absent, and a raise (None after the except
clause) for any value that is not an ISO timestamp string. -/
def fromIsoCachedAt (d : Doc) : Option Int :=
  match dictLookup "cached_at" d with
  | none => some iso20000101
  | some (Json.time t) => some t
  | some _ => none

/-- Embeds EntityResolver._load_from_cache with the TTL as an explicit
argument: miss when the file is absent; the except clause turns a corrupt
file, a non-dict document or an unparsable cached_at into a miss; a parsed
record older than ttl_days whole days is stale and yields a miss;
otherwise the record is returned. -/
def loadFromCache (ttlDays now : Int) (files : Store) (key : Name) :
    Option Json :=
  match storeLookup (keyFile key) files with
  | none => none
  | some Blob.corrupt => none
  | some (Blob.valid (Json.obj d)) =>
      match fromIsoCachedAt d with
      | none => none
      | some t =>
          if Int.fdiv (now - t) 86400 > ttlDays then none
          else some (Json.obj d)
  | some (Blob.valid _) => none

/-- Embeds EntityResolver._save_to_cache: stamp cached_at on the caller's
dict in place and write the file. -/
def saveToCache (now : Int) (files : Store) (key : Name) (d : Doc) :
    Store × Doc :=
  let d2 := dictSet "cached_at" (Json.time now) d
  (storeWrite (keyFile key) (Blob.valid (Json.obj d2)) files, d2)

/-! ## CompleteAssessmentPipeline._save_complete_cache (alternative_suggester.py)

The function runs under Python's dynamic name resolution, so the two
failure modes are embedded explicitly: attribute access on an
EntityResolver instance consults the set of attributes its constructor
assigns, and reading a local variable consults the set of locals bound in
the function body.  An uncaught exception is an error value of the
function's Except result.
-/

/-- A raised Python exception relevant to _save_complete_cache. -/
inductive PyExc where
  | attributeError (attr : String)
  | nameError (v : String)
deriving DecidableEq

/-- The attributes EntityResolver.__init__ assigns on its instances
(entity_resolver.py: self.cache_dir, self.model).  No statement anywhere
in the repository assigns a cache attribute. -/
def entityResolverAttrs : List String := ["cache_dir", "model"]

/-- Attribute access on the EntityResolver held as
self.resolver.resolver: AttributeError when the attribute was never
assigned. -/
def getattrEntityResolver (attr : String) : Except PyExc Unit :=
  if entityResolverAttrs.contains attr then Except.ok ()
  else Except.error (PyExc.attributeError attr)

/-- The local names bound in _save_complete_cache when control reaches its
try block: the parameters self and data, and cache_key.  The assignment
to cache_file is commented out in the source. -/
def saveCompleteCacheLocals : List String := ["self", "data", "cache_key"]

/-- Reading a local variable inside _save_complete_cache: NameError when
the name was never bound. -/
def readLocalVar (v : String) : Except PyExc Unit :=
  if saveCompleteCacheLocals.contains v then Except.ok ()
  else Except.error (PyExc.nameError v)

/-- The cache key string used by cache.set when the cache_key value is a
string (the only shape the repository ever stores there). -/
def cacheKeyName : Json → Name
  | Json.str s => s.toList
  | _ => []

/-- Embeds CompleteAssessmentPipeline._save_complete_cache.  With a falsy
cache_key the body is skipped.  Otherwise the source evaluates
self.resolver.resolver.cache.set before entering the try block, so a
missing cache attribute raises AttributeError to the caller.  Were the
attribute present, set would run, cached_at would be stamped again, and
the try block would read the unbound local cache_file: the NameError is
caught by the except clause and the function returns normally (the direct
file write never happens). -/
def save_complete_cache (now : Int) (cm : CacheManager) (d : Doc) :
    Except PyExc (CacheManager × Doc) :=
  let cacheKey := (dictLookup "cache_key" d).getD Json.null
  if pyTruthy cacheKey then
    match getattrEntityResolver "cache" with
    | Except.error e => Except.error e
    | Except.ok () =>
        let r := cm.set now (cacheKeyName cacheKey) d
        let d3 := dictSet "cached_at" (Json.time now) r.2.2
        match readLocalVar "cache_file" with
        | Except.error _ => Except.ok (r.2.1, d3)
        | Except.ok () => Except.ok (r.2.1, d3)
  else
    Except.ok (cm, d)

/-! ## Helper lemmas: stores -/

theorem storeLookup_write_self (n : Name) (b : Blob) (s : Store) :
    storeLookup n (storeWrite n b s) = some b := by
  simp [storeWrite, storeLookup]

theorem storeLookup_erase_ne (n m : Name) (s : Store) (h : m ≠ n) :
    storeLookup m (storeErase n s) = storeLookup m s := by
  induction s with
  | nil => rfl
  | cons p rest ih =>
      by_cases hp : p.1 = n
      · simp [storeErase, hp, storeLookup, Ne.symm h, ih]
      · by_cases hq : p.1 = m
        · simp [storeErase, hp, storeLookup, hq, h]
        · simp [storeErase, hp, storeLookup, hq, ih]

theorem storeLookup_erase_self (n : Name) (s : Store) :
    storeLookup n (storeErase n s) = none := by
  induction s with
  | nil => rfl
  | cons p rest ih =>
      by_cases hp : p.1 = n
      · simp [storeErase, hp, ih]
      · simp [storeErase, hp, storeLookup, ih]

/-! ## Helper lemmas: Python dict update -/

theorem dictLookup_map_replace (k : String) (v : Json) (d : Doc)
    (h : d.any (fun p => p.1 == k) = true) :
    dictLookup k (d.map (fun p => if p.1 = k then (k, v) else p)) = some v := by
  induction d with
  | nil => simp at h
  | cons p rest ih =>
      by_cases hp : p.1 = k
      · simp [dictLookup, hp]
      · rw [List.any_cons] at h
        have hb : (p.1 == k) = false := beq_eq_false_iff_ne.mpr hp
        rw [hb, Bool.false_or] at h
        rw [List.map_cons]
        simp only [dictLookup, hp, if_neg, if_false]
        exact ih h

theorem dictLookup_append_last (k : String) (v : Json) (d : Doc)
    (h : d.any (fun p => p.1 == k) = false) :
    dictLookup k (d ++ [(k, v)]) = some v := by
  induction d with
  | nil => simp [dictLookup]
  | cons p rest ih =>
      rw [List.any_cons] at h
      obtain ⟨h1, h2⟩ := Bool.or_eq_false_iff.mp h
      have hne : p.1 ≠ k := by
        intro he
        rw [he] at h1
        simp at h1
      rw [List.cons_append]
      simp only [dictLookup, hne, if_false]
      exact ih h2

theorem dictLookup_dictSet_self (k : String) (v : Json) (d : Doc) :
    dictLookup k (dictSet k v d) = some v := by
  unfold dictSet
  by_cases h : d.any (fun p => p.1 == k) = true
  · simp only [h, if_true]
    exact dictLookup_map_replace k v d h
  · have h2 : d.any (fun p => p.1 == k) = false := by
      cases hb : d.any (fun p => p.1 == k)
      · rfl
      · exact absurd hb h
    simp only [h2, Bool.false_eq_true, if_false]
    exact dictLookup_append_last k v d h2

theorem dictLookup_map_replace_ne (k f : String) (v : Json) (d : Doc)
    (h : f ≠ k) :
    dictLookup f (d.map (fun p => if p.1 = k then (k, v) else p))
      = dictLookup f d := by
  induction d with
  | nil => rfl
  | cons p rest ih =>
      by_cases hp : p.1 = k
      · have hm : p.1 ≠ f := by rw [hp]; exact Ne.symm h
        simp [dictLookup, hp, hm, Ne.symm h, ih]
      · by_cases hq : p.1 = f
        · simp [dictLookup, hp, hq, h]
        · simp [dictLookup, hp, hq, ih]

theorem dictLookup_append_ne (k f : String) (v : Json) (d : Doc)
    (h : f ≠ k) :
    dictLookup f (d ++ [(k, v)]) = dictLookup f d := by
  induction d with
  | nil => simp [dictLookup, Ne.symm h]
  | cons p rest ih =>
      by_cases hq : p.1 = f
      · simp [dictLookup, hq]
      · simp [dictLookup, hq, ih]

theorem dictLookup_dictSet_ne (k f : String) (v : Json) (d : Doc)
    (h : f ≠ k) :
    dictLookup f (dictSet k v d) = dictLookup f d := by
  unfold dictSet
  by_cases hb : d.any (fun p => p.1 == k) = true
  · simp only [hb, if_true]
    exact dictLookup_map_replace_ne k f v d h
  · have h2 : d.any (fun p => p.1 == k) = false := by
      cases hx : d.any (fun p => p.1 == k)
      · rfl
      · exact absurd hx hb
    simp only [h2, Bool.false_eq_true, if_false]
    exact dictLookup_append_ne k f v d h

/-! ## Helper lemmas: blob names and the .json replace -/

theorem json_prefix_of_append (x : Name)
    (h : jsonSuffixL.isPrefixOf (x ++ jsonSuffixL) = true) :
    x = [] ∨ jsonSuffixL.isPrefixOf x = true := by
  match x with
  | [] => exact Or.inl rfl
  | [a] => simp [jsonSuffixL, List.isPrefixOf] at h
  | [a, b] => simp [jsonSuffixL, List.isPrefixOf] at h
  | [a, b, c] => simp [jsonSuffixL, List.isPrefixOf] at h
  | [a, b, c, d] => simp [jsonSuffixL, List.isPrefixOf] at h
  | a :: b :: c :: d :: e :: rest =>
      refine Or.inr ?_
      simp only [jsonSuffixL, List.cons_append, List.isPrefixOf] at h ⊢
      exact h

theorem removeJsonAll_cons_of_not (c : Char) (l : List Char)
    (h : jsonSuffixL.isPrefixOf (c :: l) = false) :
    removeJsonAll (c :: l) = c :: removeJsonAll l := by
  rw [removeJsonAll.eq_def]
  split
  · rename_i rest heq
    exfalso
    injection heq with hc hl
    subst hc
    subst hl
    simp [jsonSuffixL, List.isPrefixOf] at h
  · rename_i c2 rest2 heq
    injection heq with hc hl
    subst hc
    subst hl
    rfl
  · rename_i heq
    exact absurd heq (by simp)

theorem containsJson_cons_false (c : Char) (rest : List Char)
    (h : containsJson (c :: rest) = false) :
    jsonSuffixL.isPrefixOf (c :: rest) = false ∧ containsJson rest = false := by
  rw [containsJson] at h
  exact Bool.or_eq_false_iff.mp h

theorem removeJsonAll_clean_stem (stem : Name) (h : containsJson stem = false) :
    removeJsonAll (stem ++ jsonSuffixL) = stem := by
  induction stem with
  | nil => rfl
  | cons c rest ih =>
      obtain ⟨h1, h2⟩ := containsJson_cons_false c rest h
      have hpre : jsonSuffixL.isPrefixOf ((c :: rest) ++ jsonSuffixL) = false := by
        cases hp : jsonSuffixL.isPrefixOf ((c :: rest) ++ jsonSuffixL)
        · rfl
        · rcases json_prefix_of_append (c :: rest) hp with h3 | h3
          · exact absurd h3 (by simp)
          · rw [h3] at h1
            exact absurd h1 (by simp)
      rw [List.cons_append] at hpre ⊢
      rw [removeJsonAll_cons_of_not c (rest ++ jsonSuffixL) hpre, ih h2]

/-! ## Helper lemma: after clearing, no .json names remain -/

theorem no_json_names_after_clear (s : Store) :
    (((s.filter (fun p => !endsJson p.1)).map Prod.fst).filter endsJson) = [] := by
  induction s with
  | nil => rfl
  | cons p rest ih =>
      cases hp : endsJson p.1
      · simp [List.filter_cons, hp, ih]
      · simp [List.filter_cons, hp, ih]

/-! ## Helper lemmas: key-derivation normalization -/

theorem pyLower_append (x y : List Nat) :
    pyLower (x ++ y) = pyLower x ++ pyLower y := by
  simp [pyLower]

theorem pyLower_pyUpperCp_ascii (n : Nat) (h : n < 128) :
    pyLower (pyUpperCp n) = pyLowerCp n := by
  by_cases ha : 97 ≤ n ∧ n ≤ 122
  · have h1 : pyUpperCp n = [n - 32] := by
      unfold pyUpperCp
      rw [if_pos ha]
    have h2 : pyLowerCp (n - 32) = [n] := by
      unfold pyLowerCp
      rw [if_pos (by omega)]
      simp only [List.cons.injEq, and_true]
      omega
    have h3 : pyLowerCp n = [n] := by
      unfold pyLowerCp
      rw [if_neg (by omega), if_neg (by omega), if_neg (by omega), if_neg (by omega)]
    rw [h1]
    simp [pyLower, h2, h3]
  · have h1 : pyUpperCp n = [n] := by
      unfold pyUpperCp
      rw [if_neg ha, if_neg (by omega), if_neg (by omega), if_neg (by omega),
        if_neg (by omega), if_neg (by omega)]
    rw [h1]
    simp [pyLower]

theorem pyLower_pyUpper_ascii (s : List Nat) (h : ∀ n ∈ s, n < 128) :
    pyLower (pyUpper s) = pyLower s := by
  induction s with
  | nil => rfl
  | cons a t ih =>
      have ha : a < 128 := h a (List.mem_cons_self a t)
      have ht : ∀ n ∈ t, n < 128 := fun n hn => h n (List.mem_cons_of_mem a hn)
      have hsplit : pyUpper (a :: t) = pyUpperCp a ++ pyUpper t := by
        simp [pyUpper]
      rw [hsplit, pyLower_append, pyLower_pyUpperCp_ascii a ha, ih ht]
      simp [pyLower]

theorem pyStrip_cons_space (y : List Nat) : pyStrip (32 :: y) = pyStrip y := by
  unfold pyStrip
  rfl

theorem pyStrip_append_space (y : List Nat) : pyStrip (y ++ [32]) = pyStrip y := by
  unfold pyStrip
  rw [List.dropWhile_append]
  cases he : (y.dropWhile isPySpace).isEmpty
  · rw [if_neg (by simp [he])]
    rw [List.reverse_append]
    simp [List.dropWhile_cons, isPySpace]
  · rw [if_pos rfl]
    have hy : y.dropWhile isPySpace = [] := List.isEmpty_iff.mp he
    rw [hy]
    rfl

/-! ## Claim C1 -/

/-- C1: for every key and JSON document, set then get on the Cache Manager
returns the stored document: it equals the input except for cached_at,
which set adds or overwrites with the write-time stamp regardless of any
caller-supplied cached_at value. -/
theorem set_get_roundtrip (cm : CacheManager) (now : Int) (key : Name) (d : Doc) :
    (cm.set now key d).2.1.get key
        = some (Json.obj (dictSet "cached_at" (Json.time now) d))
    ∧ dictLookup "cached_at" (dictSet "cached_at" (Json.time now) d)
        = some (Json.time now)
    ∧ ∀ f : String, f ≠ "cached_at" →
        dictLookup f (dictSet "cached_at" (Json.time now) d) = dictLookup f d := by
  refine ⟨?_, dictLookup_dictSet_self _ _ _,
    fun f hf => dictLookup_dictSet_ne _ _ _ _ hf⟩
  cases hg : cm.useGcs
  · simp [CacheManager.set, hg, CacheManager.get, CacheManager.setToLocal,
      CacheManager.getFromLocal, storeLookup_write_self]
  · simp [CacheManager.set, hg, CacheManager.get, CacheManager.setToGcs,
      CacheManager.getFromGcs, storeLookup_write_self]

/-- Witness for the C1 theorem at a concrete manager, key and document
that already carries a caller-supplied cached_at. -/
theorem set_get_roundtrip_witness :
    dictLookup "name" (dictSet "cached_at" (Json.time 7)
        [("name", Json.str "x"), ("cached_at", Json.str "junk")])
      = dictLookup "name" [("name", Json.str "x"), ("cached_at", Json.str "junk")] :=
  (set_get_roundtrip (CacheManager.mk false none "dir" false [] []) 7
      ['k'] [("name", Json.str "x"), ("cached_at", Json.str "junk")]).2.2
    "name" (by decide)

/-! ## Claim C2 -/

/-- C2: the caller-side staleness check accepts a record exactly when the
elapsed whole days since cached_at are at most ttl_days: with the
configured default of 7 days, a record stamped 10 days before the clock is
a miss and one stamped 1 hour before is returned. -/
theorem staleness_check (now t : Int) (files : Store) (key : Name) (d : Doc)
    (hf : storeLookup (keyFile key) files = some (Blob.valid (Json.obj d)))
    (ht : dictLookup "cached_at" d = some (Json.time t)) :
    (loadFromCache CACHE_TTL_DAYS now files key ≠ none →
        Int.fdiv (now - t) 86400 ≤ CACHE_TTL_DAYS)
    ∧ (now - t = 10 * 86400 → loadFromCache CACHE_TTL_DAYS now files key = none)
    ∧ (now - t = 3600 →
        loadFromCache CACHE_TTL_DAYS now files key = some (Json.obj d)) := by
  have hl : loadFromCache CACHE_TTL_DAYS now files key
      = if Int.fdiv (now - t) 86400 > CACHE_TTL_DAYS then none
        else some (Json.obj d) := by
    unfold loadFromCache
    rw [hf]
    simp only [fromIsoCachedAt, ht]
  refine ⟨?_, ?_, ?_⟩
  · intro hne
    by_cases hgt : Int.fdiv (now - t) 86400 > CACHE_TTL_DAYS
    · rw [hl, if_pos hgt] at hne
      exact absurd rfl hne
    · exact le_of_not_lt hgt
  · intro hw
    rw [hl, hw, if_pos (by decide)]
  · intro hw
    rw [hl, hw, if_neg (by decide)]

/-- Witness for the C2 theorem: a record stamped 10 days before the clock
is judged stale. -/
theorem staleness_check_witness :
    loadFromCache CACHE_TTL_DAYS 864000
      [(keyFile ['k'], Blob.valid (Json.obj [("cached_at", Json.time 0)]))]
      ['k'] = none :=
  (staleness_check 864000 0
      [(keyFile ['k'], Blob.valid (Json.obj [("cached_at", Json.time 0)]))]
      ['k'] [("cached_at", Json.time 0)] rfl rfl).2.1 (by decide)

/-! ## Claim C3 -/

/-- C3: constructing the Cache Manager with use_gcs requested but the
client library unavailable, or a falsy bucket name, or failing client
construction, falls back to the Local backend: get_storage_info reports
local and every subsequent set succeeds against the local directory, with
the bucket contents untouched and get returning the stored document. -/
theorem gcs_fallback (env : InitEnv) (bucket : Option String)
    (dir : Option String) (lf gb : Store)
    (h : env.gcsAvailable = false ∨ bucket = none ∨ bucket = some ""
        ∨ env.clientInitFails = true) :
    (CacheManager.init env bucket true dir lf gb).useGcs = false
    ∧ (CacheManager.init env bucket true dir lf gb).get_storage_info.storageType
        = "local"
    ∧ ∀ (now : Int) (key : Name) (d : Doc),
        ((CacheManager.init env bucket true dir lf gb).set now key d).1 = true
        ∧ ((CacheManager.init env bucket true dir lf gb).set now key d).2.1.localFiles
            = storeWrite (keyFile key)
                (Blob.valid (Json.obj (dictSet "cached_at" (Json.time now) d))) lf
        ∧ ((CacheManager.init env bucket true dir lf gb).set now key d).2.1.gcsBlobs
            = gb
        ∧ ((CacheManager.init env bucket true dir lf gb).set now key d).2.1.get key
            = some (Json.obj (dictSet "cached_at" (Json.time now) d)) := by
  have hu : (CacheManager.init env bucket true dir lf gb).useGcs = false := by
    cases hga : env.gcsAvailable <;> cases hcf : env.clientInitFails <;>
      rcases h with h | h | h | h <;>
      simp_all [CacheManager.init, pyTruthyStr,
        show ("" : String).isEmpty = true from rfl]
  have hlf : (CacheManager.init env bucket true dir lf gb).localFiles = lf := rfl
  have hgb : (CacheManager.init env bucket true dir lf gb).gcsBlobs = gb := rfl
  refine ⟨hu, ?_, fun now key d => ?_⟩
  · simp [CacheManager.get_storage_info, hu]
  · refine ⟨?_, ?_, ?_, ?_⟩ <;>
      simp [CacheManager.set, hu, CacheManager.setToLocal, CacheManager.get,
        CacheManager.getFromLocal, storeLookup_write_self, hlf, hgb]

/-- Witness for the C3 theorem: remote mode requested with the client
library present but no bucket name given. -/
theorem gcs_fallback_witness :
    (CacheManager.init ⟨true, false⟩ none true none [] []).get_storage_info.storageType
      = "local" :=
  (gcs_fallback ⟨true, false⟩ none none [] [] (Or.inr (Or.inl rfl))).2.1

/-! ## Claim C4 -/

/-- C4 counterexample: Python's full Unicode upper-casing makes key
derivation case-sensitive in general.  The sharp s ß (code point 223)
uppercases to SS, lower-casing does not undo that expansion, and the
derived keys of ß and of its uppercase differ — refuting
derive_key(s) == derive_key(s.upper()) as a claim over every string. -/
theorem derive_key_upper_counterexample :
    pyUpper [223] = [83, 83]
    ∧ getCacheKey [223] = "cd3a7e92a9114307".toList
    ∧ getCacheKey (pyUpper [223]) = "a31fe9656fc8d3a4".toList
    ∧ getCacheKey [223] ≠ getCacheKey (pyUpper [223]) := by
  have h1 : getCacheKey [223] = "cd3a7e92a9114307".toList := rfl
  have h2 : getCacheKey (pyUpper [223]) = "a31fe9656fc8d3a4".toList := rfl
  refine ⟨rfl, h1, h2, ?_⟩
  rw [h1, h2]
  decide

/-- C4 amended: key derivation lower-cases and strips its input before
hashing, so derive_key of s equals derive_key of s with a space prepended
and appended for every input s, and equals derive_key of s.upper for
every s whose code points are all ASCII; the case-insensitivity does not
extend to code points with expanding Unicode case mappings such as ß. -/
theorem derive_key_insensitive_amended (s : List Nat) :
    getCacheKey s = getCacheKey ([32] ++ s ++ [32])
    ∧ ((∀ n ∈ s, n < 128) → getCacheKey s = getCacheKey (pyUpper s)) := by
  constructor
  · unfold getCacheKey
    have h1 : pyLower ([32] ++ s ++ [32]) = 32 :: (pyLower s ++ [32]) := by
      rw [pyLower_append, pyLower_append]
      simp [show pyLower [32] = [32] from rfl]
    rw [h1, pyStrip_cons_space, pyStrip_append_space]
  · intro h
    unfold getCacheKey
    rw [pyLower_pyUpper_ascii s h]

/-- Witness for the amended C4 theorem: the case-insensitivity branch
applied to the concrete ASCII string gh. -/
theorem derive_key_insensitive_amended_witness :
    getCacheKey [103, 104] = getCacheKey (pyUpper [103, 104]) :=
  (derive_key_insensitive_amended [103, 104]).2 (by decide)

/-! ## Claim C5 -/

/-- C5: a stored blob that exists but fails to parse as JSON is treated as
a cache miss: get returns None (the raise is caught and logged), on either
backend. -/
theorem corrupt_blob_get_none (cm : CacheManager) (key : Name)
    (h : storeLookup (keyFile key)
        (if cm.useGcs then cm.gcsBlobs else cm.localFiles) = some Blob.corrupt) :
    cm.get key = none := by
  cases hg : cm.useGcs
  · simp only [hg, Bool.false_eq_true, if_false] at h
    simp [CacheManager.get, hg, CacheManager.getFromLocal, h]
  · simp only [hg, if_true] at h
    simp [CacheManager.get, hg, CacheManager.getFromGcs, h]

/-- Witness for the C5 theorem: a corrupt local file under the key. -/
theorem corrupt_blob_get_none_witness :
    (CacheManager.mk false none "dir" false
        [(keyFile ['k'], Blob.corrupt)] []).get ['k'] = none :=
  corrupt_blob_get_none
    (CacheManager.mk false none "dir" false [(keyFile ['k'], Blob.corrupt)] [])
    ['k'] rfl

/-! ## Claim C6 -/

/-- C6: delete reports whether a deletion occurred — true exactly when the
entry existed — and a second delete of the same key always reports false
instead of raising, on either backend. -/
theorem delete_idempotent (cm : CacheManager) (key : Name) :
    (cm.delete key).1
        = (storeLookup (keyFile key)
            (if cm.useGcs then cm.gcsBlobs else cm.localFiles)).isSome
    ∧ ((cm.delete key).2.delete key).1 = false := by
  cases hg : cm.useGcs
  · constructor
    · simp only [hg, Bool.false_eq_true, if_false]
      cases hs : (storeLookup (keyFile key) cm.localFiles).isSome <;>
        simp [CacheManager.delete, hg, CacheManager.deleteFromLocal, hs]
    · cases hs : (storeLookup (keyFile key) cm.localFiles).isSome
      · simp [CacheManager.delete, hg, CacheManager.deleteFromLocal, hs]
      · simp [CacheManager.delete, hg, CacheManager.deleteFromLocal, hs,
          storeLookup_erase_self]
  · constructor
    · simp only [hg, if_true]
      cases hs : (storeLookup (keyFile key) cm.gcsBlobs).isSome <;>
        simp [CacheManager.delete, hg, CacheManager.deleteFromGcs, hs]
    · cases hs : (storeLookup (keyFile key) cm.gcsBlobs).isSome
      · simp [CacheManager.delete, hg, CacheManager.deleteFromGcs, hs]
      · simp [CacheManager.delete, hg, CacheManager.deleteFromGcs, hs,
          storeLookup_erase_self]

/-! ## Claim C7 -/

/-- C7 counterexample: the remote list_keys applies str.replace, which
removes every occurrence of ".json" from a blob name: the blob named
a.json.json yields key a, whereas stripping exactly the trailing suffix
would leave a.json. -/
theorem list_keys_strip_counterexample :
    (CacheManager.mk true (some "b") "dir" true []
        [("a.json.json".toList, Blob.valid Json.null)]).list_keys = ["a".toList]
    ∧ specStripTrailingJson ("a.json.json".toList) = "a.json".toList
    ∧ "a".toList ≠ "a.json".toList := by
  refine ⟨rfl, rfl, by decide⟩

/-- C7 amended: the remote list_keys enumerates all blobs, returns only
names ending in .json, and maps each through removal of every occurrence
of the substring ".json" (not only the trailing suffix); on names whose
stem contains no ".json", exactly the trailing suffix is stripped. -/
theorem list_keys_remove_all (cm : CacheManager) (hg : cm.useGcs = true) :
    cm.list_keys
        = ((cm.gcsBlobs.map Prod.fst).filter endsJson).map removeJsonAll
    ∧ ∀ stem : Name, containsJson stem = false →
        removeJsonAll (stem ++ jsonSuffixL) = stem :=
  ⟨by simp [CacheManager.list_keys, hg, CacheManager.listGcsKeys],
    fun stem h => removeJsonAll_clean_stem stem h⟩

/-- Witness for the amended C7 theorem on a concrete manager and stem. -/
theorem list_keys_remove_all_witness :
    removeJsonAll ("abc".toList ++ jsonSuffixL) = "abc".toList :=
  (list_keys_remove_all (CacheManager.mk true (some "b") "dir" true [] []) rfl).2
    "abc".toList rfl

/-! ## Claim C8 -/

/-- C8: clear_all deletes all managed .json entries and returns the count
deleted; in any state where every deletion succeeds (always true in the
fault-free filesystem model), list_keys right after clear_all is empty. -/
theorem clear_all_then_list_keys (cm : CacheManager) :
    (cm.clear_all).2.list_keys = []
    ∧ (cm.clear_all).1
        = (((if cm.useGcs then cm.gcsBlobs else cm.localFiles).map Prod.fst).filter
            endsJson).length := by
  cases hg : cm.useGcs
  · constructor
    · simp [CacheManager.clear_all, hg, CacheManager.clearLocal,
        CacheManager.list_keys, CacheManager.listLocalKeys,
        no_json_names_after_clear]
    · simp [CacheManager.clear_all, hg, CacheManager.clearLocal]
  · constructor
    · simp [CacheManager.clear_all, hg, CacheManager.clearGcs,
        CacheManager.list_keys, CacheManager.listGcsKeys,
        no_json_names_after_clear]
    · simp [CacheManager.clear_all, hg, CacheManager.clearGcs]

/-! ## Claim C9 -/

/-- C9 counterexample: on a document with a truthy cache_key,
_save_complete_cache raises AttributeError to its caller: the repository's
EntityResolver has no cache attribute, and self.resolver.resolver.cache is
evaluated before the try block, so the error is not caught inside the
function. -/
theorem save_complete_cache_raises :
    save_complete_cache 0 (CacheManager.mk false none "dir" false [] [])
      [("cache_key", Json.str "k")]
      = Except.error (PyExc.attributeError "cache") := rfl

/-- C9 amended: _save_complete_cache contains a dead/buggy path — the
file-write branch references the never-defined cache_file local, so it
could never succeed — but before reaching it the set delegation itself
raises AttributeError (EntityResolver has no cache attribute) outside the
try block, so for every input with a truthy cache_key the function raises
to its caller rather than catching the error. -/
theorem save_complete_cache_attribute_error (now : Int) (cm : CacheManager)
    (d : Doc)
    (h : pyTruthy ((dictLookup "cache_key" d).getD Json.null) = true) :
    save_complete_cache now cm d = Except.error (PyExc.attributeError "cache")
    ∧ readLocalVar "cache_file" = Except.error (PyExc.nameError "cache_file") := by
  constructor
  · simp only [save_complete_cache]
    rw [if_pos h]
    rfl
  · rfl

/-- Witness for the amended C9 theorem at a concrete document. -/
theorem save_complete_cache_attribute_error_witness :
    save_complete_cache 3 (CacheManager.mk false none "dir2" false [] [])
      [("cache_key", Json.str "zz"), ("x", Json.num 1)]
      = Except.error (PyExc.attributeError "cache") :=
  (save_complete_cache_attribute_error 3
      (CacheManager.mk false none "dir2" false [] [])
      [("cache_key", Json.str "zz"), ("x", Json.num 1)] rfl).1

/-! ## Claim C10 -/

/-- C10: CacheManager.set mutates the caller's dict in place: after the
call the caller's document holds cached_at equal to the stamped write time
and every other entry is unchanged. -/
theorem set_mutates_caller (cm : CacheManager) (now : Int) (key : Name) (d : Doc) :
    (cm.set now key d).2.2 = dictSet "cached_at" (Json.time now) d
    ∧ dictLookup "cached_at" (cm.set now key d).2.2 = some (Json.time now)
    ∧ ∀ f : String, f ≠ "cached_at" →
        dictLookup f (cm.set now key d).2.2 = dictLookup f d := by
  have he : (cm.set now key d).2.2 = dictSet "cached_at" (Json.time now) d := by
    cases hg : cm.useGcs <;>
      simp [CacheManager.set, hg, CacheManager.setToLocal, CacheManager.setToGcs]
  refine ⟨he, ?_, fun f hf => ?_⟩
  · rw [he]
    exact dictLookup_dictSet_self _ _ _
  · rw [he]
    exact dictLookup_dictSet_ne _ _ _ _ hf

/-- Witness for the C10 theorem at a concrete document carrying an
unrelated field and a caller-supplied cached_at. -/
theorem set_mutates_caller_witness :
    dictLookup "v" ((CacheManager.mk false none "dir" false [] []).set 9 ['q']
        [("cached_at", Json.num 0), ("v", Json.bool true)]).2.2
      = dictLookup "v" [("cached_at", Json.num 0), ("v", Json.bool true)] :=
  (set_mutates_caller (CacheManager.mk false none "dir" false [] []) 9 ['q']
      [("cached_at", Json.num 0), ("v", Json.bool true)]).2.2 "v" (by decide)

end SecAssessor
